import Mathlib

/-!
Verification development for the SuperGZip batch gzip/gunzip tool
(`src/main.rs`). The Rust source is shallowly embedded below:

* paths are lists of characters; `pathExtension` and `withExtensionEmpty`
  model `std::path::Path::extension` and `Path::with_extension("")`;
* the per-task body (`src/main.rs` lines 161-191) is `taskBody`;
* the semaphore initialisation (line 154-155) is `effectivePermits`;
* the join/collect loop (lines 194-206) is `collectErrorsLoop`;
* the final report and exit status (lines 207-219, plus Rust's
  `Termination` for `Result`) are `wrapperFinish` and `exitCode`;
* the transform functions `gzip` / `unzip` (lines 25-74) are
  `gzipModel` / `unzipModel`, over an association-list file system and
  an oracle supplying the success/failure of each I/O step;
* the semaphore discipline (lines 155, 177-189) is the step relation
  `GateStep` on `GateState`.
-/

namespace SuperGzip

/-! ## Paths and the Rust extension convention -/

/-- A filesystem path, as the list of characters of its string form. -/
abbrev FPath := List Char

/-- The characters of the compressed-file suffix `"gz"`. -/
def gzExtChars : FPath := ['g', 'z']

/-- Scan a REVERSED path for the extension split: returns
`some (revExt, revRest)` when a `'.'` occurs within the final path
component, where `revExt` is the reversed extension (characters after the
final dot) and `revRest` the reversed remainder before that dot.
Stops at a `'/'`, since Rust's `Path::extension` only inspects the file
name component. -/
def revExtSplit : List Char → Option (List Char × List Char)
  | [] => none
  | c :: cs =>
    if c = '.' then some ([], cs)
    else if c = '/' then none
    else
      match revExtSplit cs with
      | none => none
      | some (e, r) => some (c :: e, r)

/-- Whether an extension split must be discarded: Rust treats a file name
that begins with `'.'` and has no other dot (so the part before the final
dot is empty) as having no extension. -/
def extHidden (rest : List Char) : Bool :=
  rest = [] || rest.head? = some '/'

/-- Model of Rust `Path::extension()` on the string form of a path:
`none` when the file name has no embedded dot or is a dot-initial name
such as `".gz"`; otherwise the portion of the file name after the final
dot (possibly empty, as for `"a."`). -/
def pathExtension (p : FPath) : Option FPath :=
  match revExtSplit p.reverse with
  | none => none
  | some (e, r) => if extHidden r then none else some e.reverse

/-- Model of Rust `Path::with_extension("")` on the string form of a path:
drops the final dot and extension of the file name when an extension is
present, and returns the path unchanged otherwise.  This is the output
path used by `unzip` (src/main.rs line 60). -/
def withExtensionEmpty (p : FPath) : FPath :=
  match revExtSplit p.reverse with
  | none => p
  | some (_, r) => if extHidden r then p else r.reverse

/-- Output path of `gzip`: `format!("{}.gz", path)` (src/main.rs line 35). -/
def gzOutputPath (p : FPath) : FPath := p ++ ['.', 'g', 'z']

/-- Whether `path.extension() == Some("gz")`, the test used by the
coordinator (src/main.rs lines 168-169). -/
def hasGzExt (p : FPath) : Bool := decide (pathExtension p = some gzExtChars)

theorem revExtSplit_some {l e r : List Char} (h : revExtSplit l = some (e, r)) :
    l = e ++ '.' :: r := by
  induction l generalizing e r with
  | nil => simp [revExtSplit] at h
  | cons c cs ih =>
    by_cases hc : c = '.'
    · subst hc
      simp [revExtSplit] at h
      simp [h.1, h.2]
    · by_cases hs : c = '/'
      · subst hs
        simp [revExtSplit, hc] at h
      · simp [revExtSplit, hc, hs] at h
        match he : revExtSplit cs with
        | none => rw [he] at h; simp at h
        | some (e₀, r₀) =>
          rw [he] at h
          simp at h
          obtain ⟨he₁, hr₁⟩ := h
          subst hr₁
          rw [← he₁]
          simpa using ih he

theorem revExtSplit_append_gz (r : List Char) :
    revExtSplit ('z' :: 'g' :: '.' :: r) = some (['z', 'g'], r) := by
  simp [revExtSplit]

/-- Appending `".gz"` and then stripping the extension recovers the path,
provided the path has a non-empty file-name component (true of every path
the glob resolver yields for a regular file). -/
theorem withExtensionEmpty_gzOutputPath (p : FPath) (hne : p ≠ [])
    (hsl : p.getLast? ≠ some '/') :
    withExtensionEmpty (gzOutputPath p) = p := by
  have hrev : (gzOutputPath p).reverse = 'z' :: 'g' :: '.' :: p.reverse := by
    simp [gzOutputPath]
  have hrne : p.reverse ≠ [] := by
    intro h
    exact hne (by simpa using congrArg List.reverse h)
  have hhd : p.reverse.head? ≠ some '/' := by
    rw [List.head?_reverse]
    exact hsl
  have hext : extHidden p.reverse = false := by
    unfold extHidden
    simp only [Bool.or_eq_false_iff]
    constructor
    · exact decide_eq_false hrne
    · exact decide_eq_false hhd
  unfold withExtensionEmpty
  rw [hrev, revExtSplit_append_gz]
  dsimp only
  simp [hext]

/-- If the coordinator saw extension `"gz"`, stripping the extension makes
the path strictly shorter, hence distinct from the original. -/
theorem withExtensionEmpty_ne_of_gz (p : FPath)
    (h : pathExtension p = some gzExtChars) : withExtensionEmpty p ≠ p := by
  unfold pathExtension at h
  unfold withExtensionEmpty
  match hs : revExtSplit p.reverse with
  | none => rw [hs] at h; simp at h
  | some (e, r) =>
    rw [hs] at h
    dsimp only at h ⊢
    by_cases hh : extHidden r = true
    · rw [if_pos hh] at h; simp at h
    · rw [if_neg hh] at h ⊢
      have hlen : p.reverse.length = e.length + 1 + r.length := by
        rw [revExtSplit_some hs]
        simp
        omega
      intro hEq
      have : r.reverse.length = p.length := by rw [hEq]
      simp at this
      rw [List.length_reverse] at hlen
      omega

/-! ## Per-task eligibility and body (src/main.rs lines 161-191) -/

/-- The skip test of the spawned task (src/main.rs lines 168-169):
skip when compressing a path whose extension is already `"gz"`, or when
decompressing a path whose extension is not `"gz"`. -/
def suffixSkip (bZip : Bool) (p : FPath) : Bool :=
  (bZip && hasGzExt p) || (!bZip && !hasGzExt p)

/-- A candidate is eligible when it is a regular file and the suffix test
does not skip it; only then does the task acquire a permit and run the
transform. -/
def eligible (bZip : Bool) (isF : Bool) (p : FPath) : Bool :=
  isF && !(suffixSkip bZip p)

/-- Result of one transform call, as the task body sees it. -/
inductive TRes where
  | ok
  | err (msg : List Char)
deriving DecidableEq

/-- The distinct exit points of the spawned task body:
early return at line 164 (not a regular file), early return at line 174
(suffix mismatch), or the transform's own result returned at line 190. -/
inductive BodyExit where
  | notFile
  | suffixSkipped
  | transformed (r : TRes)
deriving DecidableEq

/-- One spawned task body (src/main.rs lines 161-191): given the result of
the `is_file` check and the result the transform would produce, returns
which exit the body takes together with whether a gate permit was
acquired (line 177 is reached only past both early returns). -/
def taskBody (bZip : Bool) (isF : Bool) (p : FPath) (transform : TRes) :
    BodyExit × Bool :=
  if !isF then (.notFile, false)
  else if suffixSkip bZip p then (.suffixSkipped, false)
  else (.transformed transform, true)

/-- The value the task body actually returns to the coordinator: both
early returns yield `Ok(())`, the transform exit yields its result. -/
def bodyReturn : BodyExit → TRes
  | .notFile => .ok
  | .suffixSkipped => .ok
  | .transformed r => r

/-! ## Concurrency gate size (src/main.rs lines 154-155) -/

/-- `let _max_threads = num_threads.unwrap_or(1)`: the number of permits
the semaphore is created with. An absent option defaults to 1; a present
value — including 0 — is used as given. -/
def effectivePermits (numThreads : Option Nat) : Nat :=
  numThreads.getD 1

/-! ## Error taxonomy and the join/collect loop (src/main.rs 127-143, 194-206) -/

/-- `SuperGzipError` (src/main.rs lines 127-131): an I/O failure from the
transform, or a `JoinError` from the task runtime. -/
inductive GzErr where
  | ioError (msg : List Char)
  | threading (msg : List Char)
deriving DecidableEq

/-- The `{:?}` rendering used when dumping errors (src/main.rs line 216). -/
def debugFormat : GzErr → List Char
  | .ioError m => ('I' :: 'O' :: '(' :: m) ++ [')']
  | .threading m => ('T' :: 'h' :: 'r' :: 'e' :: 'a' :: 'd' :: 'i' :: 'n' :: 'g' :: '(' :: m) ++ [')']

/-- What awaiting one `JoinHandle` yields: a runtime join fault, or the
task body's own result. -/
inductive JoinRes where
  | joinFault (msg : List Char)
  | finished (r : TRes)
deriving DecidableEq

/-- The error (if any) one awaited handle contributes, following the
`match` at src/main.rs lines 196-205: a join fault becomes
`Threading`, a task-body error becomes `IO`, success contributes
nothing. -/
def joinOne : JoinRes → Option GzErr
  | .joinFault m => some (.threading m)
  | .finished (.err m) => some (.ioError m)
  | .finished .ok => none

/-- The collect loop (src/main.rs lines 194-206): walk the handles in the
order they were spawned, pushing each error onto the accumulator. -/
def collectErrorsLoop (acc : List GzErr) : List JoinRes → List GzErr
  | [] => acc
  | j :: rest =>
    match joinOne j with
    | some e => collectErrorsLoop (acc ++ [e]) rest
    | none => collectErrorsLoop acc rest

/-- The error list the coordinator ends up with. -/
def collectErrors (l : List JoinRes) : List GzErr :=
  collectErrorsLoop [] l

/-- The per-handle outcome: each awaited handle contributes exactly one. -/
inductive TaskOutcome where
  | succeeded
  | failed (e : GzErr)
deriving DecidableEq

/-- Outcome of one awaited handle. -/
def taskOutcome (j : JoinRes) : TaskOutcome :=
  match joinOne j with
  | some e => .failed e
  | none => .succeeded

/-- The failure carried by an outcome, if any. -/
def failureOf : TaskOutcome → Option GzErr
  | .succeeded => none
  | .failed e => some e

/-! ### Completion instants

The source awaits handles in spawn order and never consults when a task
actually finished; to compare with the spec's completion-order claim we
pair each handle with the instant its task completed. -/

/-- The collect loop over timed handles: the completion instant in the
first component is ignored, exactly as the sequential `handle.await` loop
of the source ignores it. -/
def collectErrorsTimedLoop (acc : List GzErr) : List (Nat × JoinRes) → List GzErr
  | [] => acc
  | (_, j) :: rest =>
    match joinOne j with
    | some e => collectErrorsTimedLoop (acc ++ [e]) rest
    | none => collectErrorsTimedLoop acc rest

/-- Errors collected from timed handles, in the source's order. -/
def collectErrorsTimed (l : List (Nat × JoinRes)) : List GzErr :=
  collectErrorsTimedLoop [] l

/-- Insertion of a timed handle into a list sorted by completion instant. -/
def insertByTime (x : Nat × JoinRes) : List (Nat × JoinRes) → List (Nat × JoinRes)
  | [] => [x]
  | y :: ys => if x.1 ≤ y.1 then x :: y :: ys else y :: insertByTime x ys

/-- Timed handles sorted by completion instant (insertion sort). -/
def sortByTime : List (Nat × JoinRes) → List (Nat × JoinRes)
  | [] => []
  | x :: xs => insertByTime x (sortByTime xs)

/-- Modelled from the spec: the failure list ordered by task completion
order ("order = completion order, not input order"), i.e. the errors of
the handles taken in increasing order of completion instant. -/
def completionOrderFailures (l : List (Nat × JoinRes)) : List GzErr :=
  collectErrors ((sortByTime l).map (fun x => x.2))

/-! ## Final report and exit status (src/main.rs lines 207-219, 222-243) -/

/-- The `Finished with N errors.` line printed on the failure path
(src/main.rs line 213). -/
def finishedLine (n : Nat) : List Char :=
  ("Finished with " ++ Nat.repr n ++ " errors.").toList

/-- Newline-joining of the debug-formatted failure reasons
(src/main.rs lines 214-218). -/
def joinLines (l : List (List Char)) : List Char :=
  (List.intersperse ['\n'] l).flatten

/-- The result `_wrapper` returns to `main`. -/
inductive FinalRes where
  | ok
  | err (dump : List Char)
deriving DecidableEq

/-- The tail of `_wrapper` (src/main.rs lines 207-219): the lines printed
after all joins (the verbose elapsed-time line, then the error-count line
when there are failures) and the returned result. -/
def wrapperFinish (verbose : Bool) (elapsedLine : List Char)
    (errors : List GzErr) : List (List Char) × FinalRes :=
  let out := if verbose then [elapsedLine] else []
  if errors.isEmpty then (out, .ok)
  else (out ++ [finishedLine errors.length],
        .err (joinLines (errors.map debugFormat)))

/-- Process exit status: Rust's `Termination` for `Result<(), String>`
maps `Ok` to 0 and `Err` to the non-zero `EXIT_FAILURE` (1)
(src/main.rs lines 222-243 return `_wrapper`'s result from `main`). -/
def exitCode : FinalRes → Nat
  | .ok => 0
  | .err _ => 1

/-! ## The wrapper pipeline head (src/main.rs lines 152-206) -/

/-- Per-candidate environment: what the filesystem and runtime would
answer for this path — the `is_file` check, the transform's result were
it invoked, and whether the runtime fails the task with a join fault. -/
structure TaskEnv where
  isF : Bool
  transform : TRes
  joinFault : Option (List Char)
deriving DecidableEq

/-- What awaiting the handle of one spawned task yields: a runtime join
fault if the runtime failed the task, otherwise the body's return value. -/
def simJoin (bZip : Bool) (pe : FPath × TaskEnv) : JoinRes :=
  match pe.2.joinFault with
  | some m => .joinFault m
  | none => .finished (bodyReturn (taskBody bZip pe.2.isF pe.1 pe.2.transform).1)

/-- Outcome of `glob::glob(&pattern)` (src/main.rs line 157): a pattern
error, or the lazily matched paths (already flattened, as `paths.flatten()`
on line 159 silently drops per-entry errors). -/
inductive GlobRes where
  | patternError (msg : List Char)
  | matched (paths : List FPath)

/-- Result of one `_wrapper` run: either the `expect` panic on a pattern
error (src/main.rs line 157, which occurs before the spawn loop at
line 159, so nothing is dispatched), or a completed batch carrying the
number of spawned tasks, the number of tasks that invoked a transform,
the lines printed at the end, and the returned result. -/
inductive RunResult where
  | patternPanic (msg : List Char)
  | completed (dispatched : Nat) (transforms : Nat)
      (printed : List (List Char)) (res : FinalRes)

/-- The `_wrapper` pipeline (src/main.rs lines 152-219), over the glob
outcome and the per-path environments (paired positionally with the
matched paths). -/
def wrapperRun (bZip : Bool) (globRes : GlobRes) (envs : List TaskEnv)
    (verbose : Bool) (elapsedLine : List Char) : RunResult :=
  match globRes with
  | .patternError m => .patternPanic m
  | .matched paths =>
    let tasks := paths.zip envs
    let joins := tasks.map (simJoin bZip)
    let errs := collectErrors joins
    let fin := wrapperFinish verbose elapsedLine errs
    .completed tasks.length
      (tasks.filter (fun pe => (taskBody bZip pe.2.isF pe.1 pe.2.transform).2)).length
      fin.1 fin.2

/-- How many tasks a run dispatched (spawned). -/
def dispatchedCount : RunResult → Nat
  | .patternPanic _ => 0
  | .completed d _ _ _ => d

/-- How many Transform Unit invocations a run performed. -/
def transformCount : RunResult → Nat
  | .patternPanic _ => 0
  | .completed _ t _ _ => t

/-! ## The concurrency gate as a step relation (src/main.rs 155, 177-189)

Each spawned eligible task is in one of three phases: before the
`acquire_owned` at line 177 (`idle`), between the acquire and the
`drop(_permit)` at line 189 (`holding` — the transform runs here), or
past the drop (`released`).  The semaphore is the shared `avail`
counter; an acquire needs a free permit, and a release hands it back on
both the success and the failure exit of the transform. -/

/-- Phase of one spawned task relative to the gate. -/
inductive Phase where
  | idle
  | holding
  | released
deriving DecidableEq

/-- Gate state: free permits plus the phase of every spawned task. -/
structure GateState where
  avail : Nat
  tasks : List Phase
deriving DecidableEq

/-- Number of tasks currently holding a permit. -/
def countHolding : List Phase → Nat
  | [] => 0
  | ph :: ts => (if ph = Phase.holding then 1 else 0) + countHolding ts

/-- One scheduler step: task `i` acquires a permit (needs one free), or
task `i` drops its permit after its transform finished with result `ok`
(released on the success and on the failure path alike,
src/main.rs lines 178-190). -/
inductive GateStep : GateState → GateState → Prop where
  | acquire (s : GateState) (i : Nat) (hi : s.tasks[i]? = some Phase.idle)
      (ha : s.avail ≠ 0) :
      GateStep s ⟨s.avail - 1, s.tasks.set i Phase.holding⟩
  | release (s : GateState) (i : Nat) (ok : Bool)
      (hi : s.tasks[i]? = some Phase.holding) :
      GateStep s ⟨s.avail + 1, s.tasks.set i Phase.released⟩

/-- Initial state of a batch with `n = effectivePermits numThreads`
permits: the semaphore is full and no task holds a permit. -/
def GateInit (n : Nat) (s : GateState) : Prop :=
  s.avail = n ∧ ∀ ph ∈ s.tasks, ph ≠ Phase.holding

theorem countHolding_set (ts : List Phase) (i : Nat) (a b : Phase)
    (h : ts[i]? = some a) :
    countHolding (ts.set i b) + (if a = Phase.holding then 1 else 0) =
      countHolding ts + (if b = Phase.holding then 1 else 0) := by
  induction ts generalizing i with
  | nil => simp at h
  | cons t ts ih =>
    cases i with
    | zero =>
      simp at h
      subst h
      simp [countHolding]
      omega
    | succ i =>
      simp at h
      have := ih i h
      simp [countHolding]
      omega

theorem countHolding_eq_zero (ts : List Phase)
    (h : ∀ ph ∈ ts, ph ≠ Phase.holding) : countHolding ts = 0 := by
  induction ts with
  | nil => rfl
  | cons t ts ih =>
    have ht : t ≠ Phase.holding := h t (by simp)
    simp [countHolding, ht]
    exact ih (fun ph hm => h ph (by simp [hm]))

theorem gateStep_inv {n : Nat} {s s' : GateState} (h : GateStep s s')
    (hs : s.avail + countHolding s.tasks = n) :
    s'.avail + countHolding s'.tasks = n := by
  cases h with
  | acquire i hi ha =>
    have hc := countHolding_set s.tasks i Phase.idle Phase.holding hi
    simp at hc
    simp
    omega
  | release i ok hi =>
    have hc := countHolding_set s.tasks i Phase.holding Phase.released hi
    simp at hc
    simp
    omega

/-! ## The transform functions over a modelled file system
(src/main.rs lines 25-74) -/

/-- Success or failure of each I/O step a transform performs, beyond
what the file-system contents themselves determine. -/
structure IoOracle where
  openOk : Bool
  readOk : Bool
  createOk : Bool
  writeOk : Bool
  flushOk : Bool
  removeOk : Bool
deriving DecidableEq

/-- The oracle under which every I/O step succeeds. -/
def oracleOk : IoOracle := ⟨true, true, true, true, true, true⟩

/-- All steps of the oracle succeed. -/
def allOk (o : IoOracle) : Bool :=
  o.openOk && o.readOk && o.createOk && o.writeOk && o.flushOk && o.removeOk

/-- A file system: an association list from paths to byte contents. -/
abbrev FileSys := List (FPath × List Nat)

/-- Contents at a path. -/
def fsGet : FileSys → FPath → Option (List Nat)
  | [], _ => none
  | (q, v) :: fs, p => if q = p then some v else fsGet fs p

/-- Remove a path. -/
def fsRemove : FileSys → FPath → FileSys
  | [], _ => []
  | (q, v) :: fs, p => if q = p then fsRemove fs p else (q, v) :: fsRemove fs p

/-- Create/overwrite a path with the given contents. -/
def fsSet (fs : FileSys) (p : FPath) (v : List Nat) : FileSys :=
  (p, v) :: fsRemove fs p

/-- State after one transform call: the file system, the returned result,
and whether `remove_file` on the source was invoked. -/
structure TransformRun where
  fs : FileSys
  result : TRes
  removeInvoked : Bool
deriving DecidableEq

def openErrMsg : List Char := ['o', 'p', 'e', 'n']
def readErrMsg : List Char := ['r', 'e', 'a', 'd']
def createErrMsg : List Char := ['c', 'r', 'e', 'a', 't', 'e']
def writeErrMsg : List Char := ['w', 'r', 'i', 't', 'e']
def flushErrMsg : List Char := ['f', 'l', 'u', 's', 'h']
def removeErrMsg : List Char := ['r', 'e', 'm', 'o', 'v', 'e']

/-- Common shape of `gzip` and `unzip` (src/main.rs lines 25-48 and
50-74), which differ only in the codec applied to the bytes and in the
output path: open the source (fails when absent or on an open fault),
read it through the codec, create the destination (truncating), write the
coded bytes, flush on shutdown, and — only if every prior step succeeded
and `keep` is false — remove the source.  Every failure returns early
through `?`, leaving the file system as it stood at that step. -/
def transformModel (o : IoOracle) (codec : List Nat → List Nat) (out : FPath)
    (fs : FileSys) (p : FPath) (keep : Bool) : TransformRun :=
  match fsGet fs p with
  | none => ⟨fs, .err openErrMsg, false⟩
  | some data =>
    if !o.openOk then ⟨fs, .err openErrMsg, false⟩
    else if !o.readOk then ⟨fs, .err readErrMsg, false⟩
    else if !o.createOk then ⟨fs, .err createErrMsg, false⟩
    else
      let fs₁ := fsSet fs out []
      if !o.writeOk then ⟨fs₁, .err writeErrMsg, false⟩
      else
        let fs₂ := fsSet fs₁ out (codec data)
        if !o.flushOk then ⟨fs₂, .err flushErrMsg, false⟩
        else if keep then ⟨fs₂, .ok, false⟩
        else if !o.removeOk then ⟨fs₂, .err removeErrMsg, true⟩
        else ⟨fsRemove fs₂ p, .ok, true⟩

/-- `gzip` (src/main.rs lines 25-48): encode, writing to the source path
with `".gz"` appended (line 35). -/
def gzipModel (o : IoOracle) (enc : List Nat → List Nat) (fs : FileSys)
    (p : FPath) (keep : Bool) : TransformRun :=
  transformModel o enc (gzOutputPath p) fs p keep

/-- `unzip` (src/main.rs lines 50-74): decode, writing to the source path
with its extension stripped (line 60). -/
def unzipModel (o : IoOracle) (dec : List Nat → List Nat) (fs : FileSys)
    (p : FPath) (keep : Bool) : TransformRun :=
  transformModel o dec (withExtensionEmpty p) fs p keep

theorem fsGet_fsRemove (fs : FileSys) (p q : FPath) :
    fsGet (fsRemove fs p) q = if p = q then none else fsGet fs q := by
  induction fs with
  | nil => simp [fsRemove, fsGet]
  | cons hd tl ih =>
    obtain ⟨k, v⟩ := hd
    by_cases hkp : k = p
    · subst hkp
      by_cases hpq : k = q
      · subst hpq
        simp [fsRemove, fsGet, ih]
      · simp [fsRemove, fsGet, ih, hpq]
    · by_cases hkq : k = q
      · subst hkq
        have hpq : p ≠ k := fun h => hkp h.symm
        simp [fsRemove, fsGet, hkp, hpq]
      · simp [fsRemove, fsGet, ih, hkp, hkq]

theorem fsGet_fsSet (fs : FileSys) (p : FPath) (v : List Nat) (q : FPath) :
    fsGet (fsSet fs p v) q = if p = q then some v else fsGet fs q := by
  unfold fsSet
  by_cases hpq : p = q
  · subst hpq
    simp [fsGet]
  · simp [fsGet, hpq, fsGet_fsRemove]

theorem gzOutputPath_ne (p : FPath) : gzOutputPath p ≠ p := by
  intro h
  have := congrArg List.length h
  simp [gzOutputPath] at this

/-- Core fact behind the source-retention claim, shared by both
transforms: provided the destination is a different path than the
source, the source disappears exactly when every I/O step succeeded and
`keep` is false; after a failed destination write the source still holds
its original bytes; and with `keep` set, `remove_file` is never invoked
and the source is untouched. -/
theorem transform_source_retention (o : IoOracle) (codec : List Nat → List Nat)
    (out : FPath) (fs : FileSys) (p : FPath) (keep : Bool) (data : List Nat)
    (hsrc : fsGet fs p = some data) (hout : ¬ out = p) :
    (fsGet (transformModel o codec out fs p keep).fs p = none ↔
      (allOk o && !keep) = true)
    ∧ (o.writeOk = false →
        fsGet (transformModel o codec out fs p keep).fs p = some data)
    ∧ (transformModel o codec out fs p true).removeInvoked = false
    ∧ fsGet (transformModel o codec out fs p true).fs p = some data := by
  obtain ⟨op, rd, cr, wr, fl, rm⟩ := o
  cases op <;> cases rd <;> cases cr <;> cases wr <;> cases fl <;> cases rm <;>
    cases keep <;>
      simp [transformModel, allOk, fsGet_fsSet, fsGet_fsRemove, hsrc, hout]

/-- Under the all-success oracle the transform reduces to: truncate the
destination, write the coded bytes, and remove the source unless `keep`. -/
theorem transform_ok (codec : List Nat → List Nat) (out : FPath)
    (fs : FileSys) (p : FPath) (keep : Bool) (data : List Nat)
    (hsrc : fsGet fs p = some data) :
    transformModel oracleOk codec out fs p keep =
      if keep then ⟨fsSet (fsSet fs out []) out (codec data), .ok, false⟩
      else ⟨fsRemove (fsSet (fsSet fs out []) out (codec data)) p, .ok, true⟩ := by
  cases keep <;> simp [transformModel, oracleOk, hsrc]

/-! ## Characterizations of the collect loop -/

theorem collectErrorsLoop_eq (acc : List GzErr) (l : List JoinRes) :
    collectErrorsLoop acc l = acc ++ l.filterMap joinOne := by
  induction l generalizing acc with
  | nil => simp [collectErrorsLoop]
  | cons j rest ih =>
    cases hj : joinOne j with
    | none => simp [collectErrorsLoop, hj, ih]
    | some e => simp [collectErrorsLoop, hj, ih]

theorem collectErrorsTimedLoop_eq (acc : List GzErr) (l : List (Nat × JoinRes)) :
    collectErrorsTimedLoop acc l = acc ++ (l.map (fun x => x.2)).filterMap joinOne := by
  induction l generalizing acc with
  | nil => simp [collectErrorsTimedLoop]
  | cons j rest ih =>
    obtain ⟨t, j⟩ := j
    cases hj : joinOne j with
    | none => simp [collectErrorsTimedLoop, hj, ih]
    | some e => simp [collectErrorsTimedLoop, hj, ih]

theorem failureOf_taskOutcome (j : JoinRes) :
    failureOf (taskOutcome j) = joinOne j := by
  unfold taskOutcome
  cases h : joinOne j <;> simp [failureOf]

/-! ## The claims -/

/-- Claim C1: for every batch configured with `maxConcurrency = N`, at no
instant during the batch do more than `N` transform invocations hold a
gate permit simultaneously, and every permit acquired before a transform
is handed back on both exit paths of the task: in every state reachable
from an initial gate state with `N` free permits, the number of tasks in
the permit-holding phase is at most `N`, and free permits plus held
permits always total exactly `N` (so no completed task retains one). -/
theorem c1_gate_permits_bounded (n : Nat) (s0 s : GateState)
    (h0 : GateInit n s0) (hr : Relation.ReflTransGen GateStep s0 s) :
    countHolding s.tasks ≤ n ∧ s.avail + countHolding s.tasks = n := by
  have hinv : s.avail + countHolding s.tasks = n := by
    induction hr with
    | refl =>
      have hz := countHolding_eq_zero s0.tasks h0.2
      have ha := h0.1
      omega
    | tail hab hbc ih => exact gateStep_inv hbc ih
  exact ⟨by omega, hinv⟩

/-- State of a batch of two pending tasks behind a two-permit gate. -/
def gateWitnessState : GateState :=
  ⟨2, [Phase.idle, Phase.idle, Phase.released]⟩

/-- Witness for C1 at a concrete initial state. -/
theorem c1_gate_permits_bounded_witness :
    countHolding gateWitnessState.tasks ≤ 2 ∧
      gateWitnessState.avail + countHolding gateWitnessState.tasks = 2 :=
  c1_gate_permits_bounded 2 gateWitnessState gateWitnessState
    ⟨rfl, by decide⟩ Relation.ReflTransGen.refl

/-- Claim C2 as stated is false: `num_threads` given as 0 is used as-is
(`unwrap_or(1)` only fills in an absent value), so the semaphore is
created with 0 permits, not 1. -/
theorem c2_zero_threads_counterexample :
    effectivePermits (some 0) = 0 ∧ effectivePermits (some 0) ≠ 1 := by
  decide

/-- Claim C2, amended: the Concurrency Gate is initialized with 1 permit
when `num_threads` is absent, and otherwise with exactly the given value
— including 0, which yields a gate with no permits at all (eligible
tasks then block forever on acquisition). -/
theorem c2_gate_size_amended :
    effectivePermits none = 1 ∧ ∀ n : Nat, effectivePermits (some n) = n :=
  ⟨rfl, fun _ => rfl⟩

/-- Claim C3 as stated is false on its success half: when the failure
list is empty the run returns `Ok` (exit code 0) but prints nothing at
all without `--verbose`, and only the elapsed-time line with it — no
"finished without errors" message is ever emitted. -/
theorem c3_no_success_message_counterexample :
    (wrapperFinish false [] []).1 = []
    ∧ (wrapperFinish false [] []).2 = FinalRes.ok
    ∧ (wrapperFinish true ("Finished in 0.5 seconds".toList) []).1 =
        ["Finished in 0.5 seconds".toList] := by
  decide

/-- Claim C3, amended: with an empty failure list the process exits 0 and
prints only the verbose elapsed-time line (no completion message); with a
non-empty failure list it prints `Finished with N errors.`, exits
non-zero (1), and its error output is the newline-joined dump of all
per-file failure reasons. -/
theorem c3_exit_behavior_amended (verbose : Bool) (elapsedLine : List Char) :
    (wrapperFinish verbose elapsedLine []).2 = FinalRes.ok
    ∧ exitCode (wrapperFinish verbose elapsedLine []).2 = 0
    ∧ (wrapperFinish verbose elapsedLine []).1 =
        (if verbose then [elapsedLine] else [])
    ∧ ∀ (e : GzErr) (rest : List GzErr),
        (wrapperFinish verbose elapsedLine (e :: rest)).2 =
          FinalRes.err (joinLines ((e :: rest).map debugFormat))
        ∧ exitCode (wrapperFinish verbose elapsedLine (e :: rest)).2 = 1
        ∧ (wrapperFinish verbose elapsedLine (e :: rest)).1 =
            (if verbose then [elapsedLine] else [])
              ++ [finishedLine (e :: rest).length] := by
  refine ⟨rfl, rfl, rfl, fun e rest => ⟨?_, ?_, ?_⟩⟩ <;>
    simp [wrapperFinish, exitCode]

/-- Two handles whose tasks complete in the opposite of their spawn
order: the first-spawned task finishes at instant 5, the second at 1. -/
def timedExample : List (Nat × JoinRes) :=
  [(5, .finished (.err ['A'])), (1, .finished (.err ['B']))]

/-- Claim C4 as stated is false: the coordinator awaits handles in spawn
order, so the failure list comes out in input order `[A, B]` even though
completion order is `[B, A]`. -/
theorem c4_completion_order_counterexample :
    collectErrorsTimed timedExample =
      [GzErr.ioError ['A'], GzErr.ioError ['B']]
    ∧ completionOrderFailures timedExample =
      [GzErr.ioError ['B'], GzErr.ioError ['A']]
    ∧ collectErrorsTimed timedExample ≠ completionOrderFailures timedExample := by
  decide

/-- Claim C4, amended: the failures sequence of the final batch result is
ordered by the input/discovery order of the candidate paths (the order
the handles were spawned and are awaited in), regardless of the instants
at which the tasks actually completed. -/
theorem c4_failures_input_order_amended (l : List (Nat × JoinRes)) :
    collectErrorsTimed l = (l.map (fun x => x.2)).filterMap joinOne := by
  rw [collectErrorsTimed, collectErrorsTimedLoop_eq]
  simp

/-- Claim C5: a candidate is ineligible exactly when it is not a regular
file, or (under Compress) its extension is already `"gz"`, or (under
Decompress) its extension is not `"gz"`; and every ineligible candidate
takes one of the two silent early returns — acquiring no gate permit,
invoking no transform, and returning `Ok` (never an error). -/
theorem c5_ineligible_skipped (bZip isF : Bool) (p : FPath) (t : TRes)
    (h : eligible bZip isF p = false) :
    eligible bZip isF p =
      (isF && (if bZip then !(hasGzExt p) else hasGzExt p))
    ∧ (taskBody bZip isF p t).2 = false
    ∧ bodyReturn (taskBody bZip isF p t).1 = TRes.ok
    ∧ ((taskBody bZip isF p t).1 = BodyExit.notFile ∨
       (taskBody bZip isF p t).1 = BodyExit.suffixSkipped) := by
  have hchar : eligible bZip isF p =
      (isF && (if bZip then !(hasGzExt p) else hasGzExt p)) := by
    cases bZip <;> cases hg : hasGzExt p <;>
      simp [eligible, suffixSkip, hg]
  refine ⟨hchar, ?_⟩
  cases isF with
  | false => simp [taskBody, bodyReturn]
  | true =>
    rw [hchar] at h
    cases bZip <;> cases hg : hasGzExt p <;>
      rw [hg] at h <;> simp at h <;>
        simp [taskBody, suffixSkip, bodyReturn, hg, h]

/-- Witness for C5: compressing a path that already carries `.gz`. -/
theorem c5_ineligible_skipped_witness :
    eligible true true ("a.gz".toList) = false
    ∧ (eligible true true ("a.gz".toList) =
        (true && (if true then !(hasGzExt ("a.gz".toList))
                  else hasGzExt ("a.gz".toList)))
      ∧ (taskBody true true ("a.gz".toList) TRes.ok).2 = false
      ∧ bodyReturn (taskBody true true ("a.gz".toList) TRes.ok).1 = TRes.ok
      ∧ ((taskBody true true ("a.gz".toList) TRes.ok).1 = BodyExit.notFile ∨
         (taskBody true true ("a.gz".toList) TRes.ok).1 =
           BodyExit.suffixSkipped)) :=
  ⟨by decide, c5_ineligible_skipped true true ("a.gz".toList) TRes.ok (by decide)⟩

/-- Claim C6: a syntactically invalid glob pattern makes the run abort at
once (via the `expect` on the pattern error, before the spawn loop): the
whole batch ends as a pattern panic, no task is dispatched, and no
Transform Unit is ever invoked. -/
theorem c6_pattern_error_aborts (bZip : Bool) (msg : List Char)
    (envs : List TaskEnv) (verbose : Bool) (elapsedLine : List Char) :
    wrapperRun bZip (GlobRes.patternError msg) envs verbose elapsedLine =
      RunResult.patternPanic msg
    ∧ dispatchedCount
        (wrapperRun bZip (GlobRes.patternError msg) envs verbose elapsedLine) = 0
    ∧ transformCount
        (wrapperRun bZip (GlobRes.patternError msg) envs verbose elapsedLine) = 0 :=
  ⟨rfl, rfl, rfl⟩

/-- Claim C7: for either transform of a file, the source path vanishes
from the file system exactly when every I/O step (open, read, create,
write, flush — and the removal itself) succeeded and `keepOriginal` is
false; after a failed destination write the source still holds its
original bytes; and with `keepOriginal` set, `remove_file` is never
invoked and the source keeps its bytes.  The `gzip` half holds for every
source path (its destination `p ++ ".gz"` always differs from `p`); the
`unzip` half holds for every path carrying the `.gz` extension, which is
what the coordinator guarantees before invoking it (there the stripped
destination differs from the source). -/
theorem c7_source_removed_iff_success (o : IoOracle)
    (enc dec : List Nat → List Nat) (fs : FileSys) (p : FPath)
    (keep : Bool) (data : List Nat)
    (hsrc : fsGet fs p = some data) :
    ((fsGet (gzipModel o enc fs p keep).fs p = none ↔ (allOk o && !keep) = true)
    ∧ (o.writeOk = false → fsGet (gzipModel o enc fs p keep).fs p = some data)
    ∧ (gzipModel o enc fs p true).removeInvoked = false
    ∧ fsGet (gzipModel o enc fs p true).fs p = some data)
    ∧ (pathExtension p = some gzExtChars →
      (fsGet (unzipModel o dec fs p keep).fs p = none ↔ (allOk o && !keep) = true)
      ∧ (o.writeOk = false → fsGet (unzipModel o dec fs p keep).fs p = some data)
      ∧ (unzipModel o dec fs p true).removeInvoked = false
      ∧ fsGet (unzipModel o dec fs p true).fs p = some data) := by
  have h1 := transform_source_retention o enc (gzOutputPath p) fs p keep data
    hsrc (gzOutputPath_ne p)
  refine ⟨⟨h1.1, h1.2.1, h1.2.2.1, h1.2.2.2⟩, fun hext => ?_⟩
  have h2 := transform_source_retention o dec (withExtensionEmpty p) fs p keep
    data hsrc (withExtensionEmpty_ne_of_gz p hext)
  exact ⟨h2.1, h2.2.1, h2.2.2.1, h2.2.2.2⟩

/-- Source path of the C7 witness: a compressed file name. -/
def w7Path : FPath := "a.gz".toList

/-- File system of the C7 witness. -/
def w7Fs : FileSys := [(w7Path, [1, 2, 3])]

/-- Witness for C7 with the all-success oracle, identity codecs and
`keepOriginal = false`. -/
theorem c7_source_removed_iff_success_witness :
    fsGet w7Fs w7Path = some [1, 2, 3]
    ∧ (((fsGet (gzipModel oracleOk id w7Fs w7Path false).fs w7Path = none ↔
          (allOk oracleOk && !false) = true)
      ∧ (oracleOk.writeOk = false →
          fsGet (gzipModel oracleOk id w7Fs w7Path false).fs w7Path =
            some [1, 2, 3])
      ∧ (gzipModel oracleOk id w7Fs w7Path true).removeInvoked = false
      ∧ fsGet (gzipModel oracleOk id w7Fs w7Path true).fs w7Path = some [1, 2, 3])
      ∧ (pathExtension w7Path = some gzExtChars →
        (fsGet (unzipModel oracleOk id w7Fs w7Path false).fs w7Path = none ↔
            (allOk oracleOk && !false) = true)
        ∧ (oracleOk.writeOk = false →
            fsGet (unzipModel oracleOk id w7Fs w7Path false).fs w7Path =
              some [1, 2, 3])
        ∧ (unzipModel oracleOk id w7Fs w7Path true).removeInvoked = false
        ∧ fsGet (unzipModel oracleOk id w7Fs w7Path true).fs w7Path =
            some [1, 2, 3])) :=
  ⟨by decide,
    c7_source_removed_iff_success oracleOk id id w7Fs w7Path false [1, 2, 3]
      (by decide)⟩

/-- Claim C8: compressing a file `F` writes the encoded bytes to `F`'s
path with `".gz"` appended; stripping the extension of that output path
recovers `F`'s path (the suffix-append / suffix-strip convention); and
decompressing the output writes bytes equal to `F`'s originals back to
`F`'s path, provided the codec pair round-trips (the collaborator
contract of the external gzip codec). -/
theorem c8_round_trip (enc dec : List Nat → List Nat) (fs : FileSys)
    (p : FPath) (keep keep2 : Bool) (data : List Nat)
    (hcodec : ∀ b, dec (enc b) = b)
    (hsrc : fsGet fs p = some data)
    (hne : p ≠ []) (hsl : p.getLast? ≠ some '/')
    (_hnogz : pathExtension p ≠ some gzExtChars) :
    gzOutputPath p = p ++ ('.' :: gzExtChars)
    ∧ withExtensionEmpty (gzOutputPath p) = p
    ∧ fsGet (gzipModel oracleOk enc fs p keep).fs (gzOutputPath p) =
        some (enc data)
    ∧ fsGet (unzipModel oracleOk dec (gzipModel oracleOk enc fs p keep).fs
        (gzOutputPath p) keep2).fs p = some data := by
  have hstrip : withExtensionEmpty (gzOutputPath p) = p :=
    withExtensionEmpty_gzOutputPath p hne hsl
  have hqp : ¬ gzOutputPath p = p := gzOutputPath_ne p
  have hpq : ¬ p = gzOutputPath p := fun h => hqp h.symm
  have hg := transform_ok enc (gzOutputPath p) fs p keep data hsrc
  refine ⟨rfl, hstrip, ?_, ?_⟩
  · unfold gzipModel
    rw [hg]
    cases keep <;> simp [fsGet_fsSet, fsGet_fsRemove, hpq]
  · unfold unzipModel gzipModel
    rw [hstrip, hg]
    cases keep with
    | true =>
      have hsrc' : fsGet (fsSet (fsSet fs (gzOutputPath p) [])
          (gzOutputPath p) (enc data)) (gzOutputPath p) = some (enc data) := by
        simp [fsGet_fsSet]
      rw [if_pos rfl]
      rw [transform_ok dec p _ (gzOutputPath p) keep2 (enc data) hsrc']
      cases keep2 <;> simp [fsGet_fsSet, fsGet_fsRemove, hqp, hcodec data]
    | false =>
      have hsrc' : fsGet (fsRemove (fsSet (fsSet fs (gzOutputPath p) [])
          (gzOutputPath p) (enc data)) p) (gzOutputPath p) = some (enc data) := by
        simp [fsGet_fsRemove, fsGet_fsSet, hpq]
      rw [if_neg Bool.false_ne_true]
      rw [transform_ok dec p _ (gzOutputPath p) keep2 (enc data) hsrc']
      cases keep2 <;> simp [fsGet_fsSet, fsGet_fsRemove, hqp, hcodec data]

/-- Source path of the C8 witness: a plain text file name. -/
def w8Path : FPath := "a.txt".toList

/-- File system of the C8 witness. -/
def w8Fs : FileSys := [(w8Path, [7, 8])]

/-- Witness for C8 with identity codecs. -/
theorem c8_round_trip_witness :
    (∀ b : List Nat, id (id b) = b)
    ∧ fsGet w8Fs w8Path = some [7, 8]
    ∧ w8Path ≠ []
    ∧ w8Path.getLast? ≠ some '/'
    ∧ pathExtension w8Path ≠ some gzExtChars
    ∧ (gzOutputPath w8Path = w8Path ++ ('.' :: gzExtChars)
      ∧ withExtensionEmpty (gzOutputPath w8Path) = w8Path
      ∧ fsGet (gzipModel oracleOk id w8Fs w8Path false).fs (gzOutputPath w8Path) =
          some (id [7, 8])
      ∧ fsGet (unzipModel oracleOk id (gzipModel oracleOk id w8Fs w8Path false).fs
          (gzOutputPath w8Path) false).fs w8Path = some [7, 8]) :=
  ⟨fun _ => rfl, by decide, by decide, by decide, by decide,
    c8_round_trip id id w8Fs w8Path false false [7, 8]
      (fun _ => rfl) (by decide) (by decide) (by decide) (by decide)⟩

/-- Claim C9: every awaited handle contributes exactly one outcome (the
outcome list has one entry per handle), the collected error list is
exactly the failures of those outcomes in order — so no error is lost,
duplicated, or silently dropped — and each failure reason distinguishes
runtime join faults (`Threading`) from task I/O errors (`IO`). -/
theorem c9_one_outcome_per_task (l : List JoinRes) :
    (l.map taskOutcome).length = l.length
    ∧ (l.map taskOutcome).filterMap failureOf = collectErrors l
    ∧ collectErrors l = l.filterMap joinOne
    ∧ (∀ m : List Char, joinOne (JoinRes.joinFault m) = some (GzErr.threading m))
    ∧ (∀ m : List Char,
        joinOne (JoinRes.finished (TRes.err m)) = some (GzErr.ioError m))
    ∧ joinOne (JoinRes.finished TRes.ok) = none := by
  have hc : collectErrors l = l.filterMap joinOne := by
    rw [collectErrors, collectErrorsLoop_eq]
    simp
  refine ⟨by simp, ?_, hc, fun m => rfl, fun m => rfl, rfl⟩
  rw [hc, List.filterMap_map]
  exact List.filterMap_congr (fun j _ => failureOf_taskOutcome j)

/-- Claim C10: suffix eligibility is decided solely by whether the
path's final extension component equals the exact case-sensitive string
`"gz"`; consequently `archive.GZ` is compress-eligible and
decompress-skipped, `a.gz.bak` is compress-eligible, and the dotfile
`.gz` (whose extension is `None`) is compress-eligible and
decompress-skipped. -/
theorem c10_extension_semantics :
    (∀ (bZip : Bool) (p : FPath),
        suffixSkip bZip p = (if bZip then hasGzExt p else !(hasGzExt p))
        ∧ hasGzExt p = decide (pathExtension p = some gzExtChars))
    ∧ pathExtension ("archive.GZ".toList) = some ("GZ".toList)
    ∧ eligible true true ("archive.GZ".toList) = true
    ∧ eligible false true ("archive.GZ".toList) = false
    ∧ eligible true true ("a.gz.bak".toList) = true
    ∧ pathExtension (".gz".toList) = none
    ∧ eligible true true (".gz".toList) = true
    ∧ eligible false true (".gz".toList) = false := by
  refine ⟨fun bZip p => ⟨?_, rfl⟩, by decide, by decide, by decide,
    by decide, by decide, by decide, by decide⟩
  cases bZip <;> simp [suffixSkip]
